import Mathlib

/-!
Verification of the Ethernet3 WIZnet driver stack (W5100/W5500) against its
natural-language specification.  The definitions below are shallow embeddings
of the C++ sources under `src/`: register constants from
`chips/utility/wiznet_registers.h`, the socket protocol layer from
`chips/utility/socket.cpp`, the chip drivers from `chips/w5500.cpp`,
`chips/utility/w5100.cpp` and `chips/W5500Chip.cpp`, and the facades from
`EthernetClient.cpp`, `EthernetServer.cpp` and `EthernetUdp2.cpp`.

Hardware interactions are embedded in two ways.  Loops that poll a register
which the chip updates asynchronously (interrupt flags, status bytes, free
size counters) take the chronological list of values the successive reads
return; exhausting that list means the loop was still spinning after those
observations.  Code whose reads are stable within one call (the facades'
bookkeeping scans) is embedded as a function of an explicit state.
Register writes and socket commands issued by a code path are reported as a
list of `Ev` events so that theorems can speak about which hardware commands
a path does or does not issue.
-/

/-- Per-socket interrupt register bits (`class SnIR`, wiznet_registers.h). -/
def SnIR_SEND_OK : Nat := 0x10

/-- TIMEOUT bit of the Sn_IR register (`SnIR::TIMEOUT`). -/
def SnIR_TIMEOUT : Nat := 0x08

/-- Socket status codes (`class SnSR`, wiznet_registers.h). -/
def SnSR_CLOSED : Nat := 0x00

/-- Status code `SnSR::INIT`. -/
def SnSR_INIT : Nat := 0x13

/-- Status code `SnSR::LISTEN`. -/
def SnSR_LISTEN : Nat := 0x14

/-- Status code `SnSR::ESTABLISHED`. -/
def SnSR_ESTABLISHED : Nat := 0x17

/-- Status code `SnSR::FIN_WAIT`. -/
def SnSR_FIN_WAIT : Nat := 0x18

/-- Status code `SnSR::CLOSE_WAIT`. -/
def SnSR_CLOSE_WAIT : Nat := 0x1C

/-- Socket command codes (`enum SockCMD`, wiznet_registers.h). -/
def Sock_OPEN : Nat := 0x01

/-- Command `Sock_LISTEN`. -/
def Sock_LISTEN : Nat := 0x02

/-- Command `Sock_DISCON`. -/
def Sock_DISCON : Nat := 0x08

/-- Command `Sock_CLOSE`. -/
def Sock_CLOSE : Nat := 0x10

/-- Command `Sock_SEND`. -/
def Sock_SEND : Nat := 0x20

/-- Command `Sock_RECV`. -/
def Sock_RECV : Nat := 0x40

/-- `MAX_SOCK_NUM` (wiznet_registers.h): the facades' "no socket" sentinel. -/
def MAX_SOCK_NUM : Nat := 8

/-- The value `chip->SSIZE` denotes inside socket.cpp, whose `chip` has
static type `EthernetChip*`.  `EthernetChip::SSIZE` is a non-static,
non-virtual data member equal to 0 (EthernetChip.h, line 94, with the
comment "REDEFINE in derived classes"); the derived chips' own
`SSIZE = 2048` members (neww5500.h line 13, W5500Chip.h line 181,
W5100Chip.h line 199) only shadow it and are never reached through the
base-class pointer, so every `chip->SSIZE` read in socket.cpp yields 0. -/
def EthernetChip_SSIZE : Nat := 0

/-- One hardware side effect issued by a driver code path: an interrupt-flag
write (`writeSnIR`), a socket command (`execCmdSn`), a TX write-pointer write
(`writeSnTX_WR`), a block write of `len` bytes into the socket TX buffer
starting at 16-bit address `addr` (`write(ptr, cntl_byte, data, len)`), or a
destination IP / destination port register write (`writeSnDIPR`,
`writeSnDPORT`). -/
inductive Ev where
  | wIR (v : Nat)
  | cmd (c : Nat)
  | wTXWR (v : Nat)
  | wBuf (addr len : Nat)
  | wDIPR (a0 a1 a2 a3 : Nat)
  | wDPORT (v : Nat)
deriving DecidableEq

/-! ## UDP facade: multicast helpers (EthernetUdp2.cpp) -/

/-- `EthernetUDP::isMulticastGroup` (EthernetUdp2.cpp, lines 251-255): the
first octet of the group address must lie in 224..239. -/
def isMulticastGroup (ip0 : Nat) : Bool :=
  224 ≤ ip0 && ip0 ≤ 239

/-- `EthernetUDP::calculateMulticastMAC` (EthernetUdp2.cpp, lines 259-268):
mac = 01:00:5E, then `ip[1] & 0x7F`, `ip[2]`, `ip[3]`. -/
def calculateMulticastMAC (ip0 ip1 ip2 ip3 : Nat) : List Nat :=
  [0x01, 0x00, 0x5E, ip1 &&& 0x7F, ip2, ip3]

/-! ## Client facade: ephemeral source port (EthernetClient.cpp) -/

/-- Static starting value of `EthernetClient::_srcport` (EthernetClient.cpp,
line 19): `uint16_t EthernetClient::_srcport = 1024;`. -/
def srcportInit : Nat := 1024

/-- The source-port update performed by `EthernetClient::connect` before a
socket is opened (EthernetClient.cpp, lines 96-97): `_srcport++;` on a
`uint16_t`, then `if (_srcport == 0) _srcport = 1024;`. -/
def nextSrcport (p : Nat) : Nat :=
  if (p + 1) % 65536 = 0 then 1024 else (p + 1) % 65536

/-! ## Client facade: connected() (EthernetClient.cpp, lines 240-246) -/

/-- `EthernetClient::connected()`.  `sock` is `_sock`; `status` is the value
`status()` returns (the chip's Sn_SR byte when a socket is held); `rx` is the
value `available()` returns (`getRXReceivedSize`).  The source:
`if (_sock == MAX_SOCK_NUM) return 0;` then
`return !(s == LISTEN || s == CLOSED || s == FIN_WAIT ||
(s == CLOSE_WAIT && !available()));`. -/
def connectedModel (sock status rx : Nat) : Bool :=
  if sock = MAX_SOCK_NUM then false
  else !(status == SnSR_LISTEN || status == SnSR_CLOSED || status == SnSR_FIN_WAIT ||
         (status == SnSR_CLOSE_WAIT && rx == 0))

/-! ## Theorems: C9, C5, C6 -/

/-- C9: for every group address accepted by `beginMulticast`
(`isMulticastGroup`, first octet 224..239), `calculateMulticastMAC` yields
01:00:5E followed by the low 23 bits of the group IP: byte 3 is the second
octet masked with 0x7F, bytes 4-5 are the third and fourth octets, and the
last three bytes together equal the 32-bit group address modulo 2^23; in
particular 239.255.1.1 maps to 01:00:5E:7F:01:01. -/
theorem multicastMAC_low23 (ip0 ip1 ip2 ip3 : Nat)
    (hm : isMulticastGroup ip0 = true)
    (h1 : ip1 < 256) (h2 : ip2 < 256) (h3 : ip3 < 256) :
    calculateMulticastMAC ip0 ip1 ip2 ip3 = [0x01, 0x00, 0x5E, ip1 &&& 0x7F, ip2, ip3] ∧
    (ip1 &&& 0x7F) * 65536 + ip2 * 256 + ip3 =
      (ip0 * 16777216 + ip1 * 65536 + ip2 * 256 + ip3) % 8388608 ∧
    calculateMulticastMAC 239 255 1 1 = [0x01, 0x00, 0x5E, 0x7F, 0x01, 0x01] := by
  refine ⟨rfl, ?_, rfl⟩
  have hland : ip1 &&& 0x7F = ip1 % 128 := Nat.and_pow_two_sub_one_eq_mod ip1 7
  rw [hland]
  omega

/-- C9 witness: the theorem applied to the group address 239.255.1.1. -/
theorem multicastMAC_low23_witness :
    calculateMulticastMAC 239 255 1 1 = [0x01, 0x00, 0x5E, 0x7F, 0x01, 0x01] :=
  (multicastMAC_low23 239 255 1 1 (by decide) (by decide) (by decide) (by decide)).1

/-- C5 counterexample: the ephemeral source-port counter starts at
1024, not 49152 (EthernetClient.cpp line 19), and after reaching 65535 the
next allocation wraps to 1024 (the `_srcport == 0` check), not to 49152. -/
theorem srcport_not49152 :
    srcportInit = 1024 ∧ srcportInit ≠ 49152 ∧
    nextSrcport 65535 = 1024 ∧ nextSrcport 65535 ≠ 49152 := by
  decide

/-- C5 amended: the counter starts at 1024 (a static member shared by all
`EthernetClient` objects), each allocation increments it by one, it never
yields port 0 (an increment that wraps the `uint16_t` to 0 is replaced by
1024), and after 65535 it wraps back to 1024. -/
theorem srcport_amended (p : Nat) (h : p < 65535) :
    srcportInit = 1024 ∧ nextSrcport p ≠ 0 ∧ nextSrcport p = p + 1 ∧
    nextSrcport 65535 = 1024 := by
  refine ⟨rfl, ?_, ?_, rfl⟩ <;> (simp only [nextSrcport]; split <;> omega)

/-- C5 amended witness: the theorem evaluated at counter value 2000. -/
theorem srcport_amended_witness :
    srcportInit = 1024 ∧ nextSrcport 2000 ≠ 0 ∧ nextSrcport 2000 = 2001 ∧
    nextSrcport 65535 = 1024 :=
  srcport_amended 2000 (by decide)

/-- C6: `connected()` is false exactly when the client holds no socket
(`_sock = MAX_SOCK_NUM`) or the socket status is LISTEN, CLOSED or FIN_WAIT,
or is CLOSE_WAIT with no unread data; in particular a CLOSE_WAIT socket with
unread data still reports connected (draining semantics). -/
theorem connected_iff (sock status rx : Nat) :
    (connectedModel sock status rx = false ↔
      (sock = MAX_SOCK_NUM ∨ status = SnSR_LISTEN ∨ status = SnSR_CLOSED ∨
       status = SnSR_FIN_WAIT ∨ (status = SnSR_CLOSE_WAIT ∧ rx = 0))) ∧
    (sock ≠ MAX_SOCK_NUM → status = SnSR_CLOSE_WAIT → 0 < rx →
      connectedModel sock status rx = true) := by
  constructor
  · simp only [connectedModel, SnSR_LISTEN, SnSR_CLOSED, SnSR_FIN_WAIT, SnSR_CLOSE_WAIT,
      MAX_SOCK_NUM]
    by_cases hs : sock = 8 <;> simp [hs] <;> omega
  · intro hsock hst hrx
    simp only [connectedModel, SnSR_LISTEN, SnSR_CLOSED, SnSR_FIN_WAIT, SnSR_CLOSE_WAIT,
      MAX_SOCK_NUM] at *
    simp [hsock, hst]
    omega

/-- C6 witness: a held socket in CLOSE_WAIT with 5 unread bytes reports
connected, and with 0 unread bytes reports not connected. -/
theorem connected_iff_witness :
    connectedModel 3 SnSR_CLOSE_WAIT 5 = true ∧
    (connectedModel 3 SnSR_CLOSE_WAIT 0 = false ↔
      ((3 : Nat) = MAX_SOCK_NUM ∨ SnSR_CLOSE_WAIT = SnSR_LISTEN ∨
       SnSR_CLOSE_WAIT = SnSR_CLOSED ∨ SnSR_CLOSE_WAIT = SnSR_FIN_WAIT ∨
       (SnSR_CLOSE_WAIT = SnSR_CLOSE_WAIT ∧ (0 : Nat) = 0))) :=
  ⟨(connected_iff 3 SnSR_CLOSE_WAIT 5).2 (by decide) rfl (by decide),
   (connected_iff 3 SnSR_CLOSE_WAIT 0).1⟩

/-! ## Socket-slot allocation scans (EthernetClient.cpp, EthernetUdp2.cpp) -/

/-- The `for (int i = 0; i < MAX_SOCK_NUM; i++) { ... break; }` scan pattern:
first index in `l` satisfying `pred`, or `none`. -/
def scanFirst (pred : Fin 8 → Bool) : List (Fin 8) → Option (Fin 8)
  | [] => none
  | s :: rest => if pred s then some s else scanFirst pred rest

/-- The index list 0..7 the facades' `for` loops iterate over. -/
def allSocks : List (Fin 8) := List.finRange 8

/-- Slot-reuse test of `EthernetClient::connect` (EthernetClient.cpp,
line 88): hardware status CLOSED, FIN_WAIT or CLOSE_WAIT. -/
def clientReusable (st : Nat) : Bool :=
  st == SnSR_CLOSED || st == SnSR_FIN_WAIT || st == SnSR_CLOSE_WAIT

/-- Slot-reuse test of `EthernetUDP::begin` (EthernetUdp2.cpp, line 45):
hardware status CLOSED or FIN_WAIT only. -/
def udpReusable (st : Nat) : Bool :=
  st == SnSR_CLOSED || st == SnSR_FIN_WAIT

/-- Allocation-phase outcome of `EthernetClient::connect(ip, port)`
(EthernetClient.cpp, lines 83-94). -/
inductive AllocStep where
  | busy
  | noSlot
  | proceed (s : Fin 8)
deriving DecidableEq

/-- Lines 83-94 of EthernetClient.cpp: `if (_sock != MAX_SOCK_NUM) return 0;`
then the reuse scan; `if (_sock == MAX_SOCK_NUM) return 0;`. -/
def connectAllocPhase (sock : Nat) (status : Fin 8 → Nat) : AllocStep :=
  if sock ≠ MAX_SOCK_NUM then .busy
  else
    match scanFirst (fun i => clientReusable (status i)) allSocks with
    | none => .noSlot
    | some s => .proceed s

/-- `EthernetClient::connect(ip, port)` up to its early returns, as
(return value, `_sock` afterwards, hardware events issued).  `cont`
abstracts the remainder of the function (lines 96-113: ephemeral port
assignment, `socket()`, `::connect`, the status polling loop), which only
runs once a slot was allocated. -/
def connectResult (sock : Nat) (status : Fin 8 → Nat)
    (cont : Fin 8 → Nat × Nat × List Ev) : Nat × Nat × List Ev :=
  match connectAllocPhase sock status with
  | .busy => (0, sock, [])
  | .noSlot => (0, MAX_SOCK_NUM, [])
  | .proceed s => cont s

/-- `EthernetUDP::begin(port)` up to its early returns (EthernetUdp2.cpp,
lines 40-58): `if (_sock != MAX_SOCK_NUM) return 0;`, the CLOSED/FIN_WAIT
scan, `if (_sock == MAX_SOCK_NUM) return 0;`; `cont` abstracts the
successful tail (recording `_port`, clearing `_remaining`, `socket(...)`,
`return 1`). -/
def udpBeginResult (sock : Nat) (status : Fin 8 → Nat)
    (cont : Fin 8 → Nat × Nat × List Ev) : Nat × Nat × List Ev :=
  if sock ≠ MAX_SOCK_NUM then (0, sock, [])
  else
    match scanFirst (fun i => udpReusable (status i)) allSocks with
    | none => (0, MAX_SOCK_NUM, [])
    | some s => cont s

/-! ## Send polling loops (chips/utility/socket.cpp) -/

/-- Poll loop of TCP `send` (socket.cpp, lines 112-121).  Each list entry is
one loop iteration's reads: the Sn_IR byte, then the Sn_SR byte.  Exits: if
the SEND_OK bit is set, `writeSnIR(SEND_OK)` and return the pending byte
count `ret`; if the status byte reads CLOSED, `close()` (a `Sock_CLOSE`
command then `writeSnIR(0xFF)`) and return 0.  `none` means the loop was
still spinning when the observation list ran out. -/
def tcpSendPoll (ret : Nat) : List (Nat × Nat) → Option (Nat × List Ev)
  | [] => none
  | (ir, sr) :: rest =>
      if ir &&& SnIR_SEND_OK = SnIR_SEND_OK then some (ret, [Ev.wIR SnIR_SEND_OK])
      else if sr = SnSR_CLOSED then some (0, [Ev.cmd Sock_CLOSE, Ev.wIR 0xFF])
      else tcpSendPoll ret rest

/-- Poll loop of `sendUDP` (socket.cpp, lines 340-349) and of `sendto`
(lines 194-203).  Each entry is one iteration's two Sn_IR reads: the loop
condition's read, then the TIMEOUT-check read.  Exits: SEND_OK set in the
first read means success (`writeSnIR(SEND_OK)`, return 1); TIMEOUT set in
the second read means failure (`writeSnIR(SEND_OK | TIMEOUT)`, return 0). -/
def udpSendPoll : List (Nat × Nat) → Option (Nat × List Ev)
  | [] => none
  | (ir1, ir2) :: rest =>
      if ir1 &&& SnIR_SEND_OK = SnIR_SEND_OK then some (1, [Ev.wIR SnIR_SEND_OK])
      else if ir2 &&& SnIR_TIMEOUT ≠ 0 then
        some (0, [Ev.wIR (SnIR_SEND_OK ||| SnIR_TIMEOUT)])
      else udpSendPoll rest

/-- Free-size wait loop of TCP `send` (socket.cpp, lines 98-105).  Each
entry is one do-while iteration's reads: `getTXFreeSize` then Sn_SR.  A
status outside {ESTABLISHED, CLOSE_WAIT} forces `ret = 0` and breaks;
otherwise the loop exits once the free size reaches `ret`. -/
def sendFreeLoop (ret : Nat) : List (Nat × Nat) → Option Nat
  | [] => none
  | (fs, st) :: rest =>
      if st ≠ SnSR_ESTABLISHED ∧ st ≠ SnSR_CLOSE_WAIT then some 0
      else if fs < ret then sendFreeLoop ret rest
      else some ret

/-- TCP `send(chip, s, buf, len)` (socket.cpp, lines 87-122).  `txWR` is the
socket's Sn_TX_WR value read by `send_data_processing`.  The function clamps
`len` to `chip->SSIZE` — which is the base-class member 0, see
`EthernetChip_SSIZE` — runs the free-size loop, copies `ret` bytes at the TX
write pointer and advances it (`send_data_processing`), issues `Sock_SEND`,
and runs the SEND_OK poll loop; it reaches the copy/SEND/poll sequence even
when the free-size loop aborted with `ret = 0`, and because the clamp is 0
the pending count `ret` is 0 on every call. -/
def sendModel (len : Nat) (freePolls irPolls : List (Nat × Nat)) (txWR : Nat) :
    Option (Nat × List Ev) :=
  let ret0 := if len > EthernetChip_SSIZE then EthernetChip_SSIZE else len
  match sendFreeLoop ret0 freePolls with
  | none => none
  | some ret =>
      match tcpSendPoll ret irPolls with
      | none => none
      | some r =>
          some (r.1, Ev.wBuf txWR ret :: Ev.wTXWR ((txWR + ret) % 65536) ::
                     Ev.cmd Sock_SEND :: r.2)

/-- `sendto(chip, s, buf, len, addr, port)` (socket.cpp, lines 172-206).
`addrZero` abstracts the `addr[0..3] == 0` test, `txWR` the Sn_TX_WR value,
`polls` the SEND_OK/TIMEOUT loop reads.  The clamp `len > chip->SSIZE`
again reads the base-class member 0 (`EthernetChip_SSIZE`), so `ret` is 0
on every call and the guard `addrZero || port == 0 || ret == 0` is always
taken: the destination writes, data copy, SEND command and poll loop of the
else branch are dead code and `sendto` returns 0 having issued nothing. -/
def sendtoModel (len : Nat) (addrZero : Bool) (a0 a1 a2 a3 port txWR : Nat)
    (polls : List (Nat × Nat)) : Option (Nat × List Ev) :=
  let ret := if len > EthernetChip_SSIZE then EthernetChip_SSIZE else len
  if addrZero = true ∨ port = 0 ∨ ret = 0 then some (0, [])
  else
    (udpSendPoll polls).map (fun r =>
      (if r.1 = 1 then ret else 0,
       Ev.wDIPR a0 a1 a2 a3 :: Ev.wDPORT port :: Ev.wBuf txWR ret ::
       Ev.wTXWR ((txWR + ret) % 65536) :: Ev.cmd Sock_SEND :: r.2))

/-! ## TX buffer writes and streaming UDP (w5500.cpp, socket.cpp) -/

/-- Chip-side state touched by the streaming-UDP send path: the socket's
Sn_TX_WR register and the (stable) Sn_TX_FSR free-size reading. -/
structure TxState where
  txWR : Nat
  fsr : Nat
deriving DecidableEq

/-- `W5500::send_data_processing_offset` (w5500.cpp, lines 108-116):
reads Sn_TX_WR, adds `data_offset`, block-writes `len` bytes there, then
writes Sn_TX_WR back as `ptr + len` (all 16-bit).  Returns the new state and
the events issued. -/
def send_data_processing_offset (st : TxState) (dataOff len : Nat) :
    TxState × List Ev :=
  let ptr := (st.txWR + dataOff) % 65536
  ({ st with txWR := (ptr + len) % 65536 },
   [Ev.wBuf ptr len, Ev.wTXWR ((ptr + len) % 65536)])

/-- `bufferData(chip, s, offset, buf, len)` (socket.cpp, lines 313-323):
clamps `len` to the TX free size (read via `getTXFreeSize`, stable here),
then calls `send_data_processing_offset`.  Returns the new state, the
clamped count it returns, and the events issued. -/
def bufferData (st : TxState) (offset len : Nat) : TxState × Nat × List Ev :=
  let ret := if len > st.fsr then st.fsr else len
  let r := send_data_processing_offset st offset ret
  (r.1, ret, r.2)

/-- `sendUDP(chip, s)` (socket.cpp, lines 336-353): issues `Sock_SEND` and
runs the SEND_OK/TIMEOUT poll loop; it performs no TX-pointer access, so the
`TxState` passes through untouched. -/
def sendUDPModel (st : TxState) (polls : List (Nat × Nat)) :
    TxState × Option (Nat × List Ev) :=
  (st, (udpSendPoll polls).map (fun r => (r.1, Ev.cmd Sock_SEND :: r.2)))

/-! ## TCP receive (socket.cpp, lines 130-152) -/

/-- Reinterpretation of a `uint16_t` value as the C `int16_t` it is assigned
to in `recv` (`int16_t ret = chip->getRXReceivedSize(s);`). -/
def toInt16 (n : Nat) : Int :=
  if n % 65536 < 32768 then ((n % 65536 : Nat) : Int)
  else ((n % 65536 : Nat) : Int) - 65536

/-- Outcome of one `recv` call: the returned `int16_t`, the number of bytes
copied out of the RX buffer, the Sn_RX_RD address they were copied from, the
Sn_RX_RD register after the call, and whether `Sock_RECV` was issued. -/
structure RecvOut where
  ret : Int
  copied : Nat
  copyFrom : Nat
  rd : Nat
  recvCmd : Bool
deriving DecidableEq

/-- `recv(chip, s, buf, len)` (socket.cpp, lines 130-152) is embedded as
`recvModel` below; `rsr` is the value `getRXReceivedSize` returns, `status`
the Sn_SR byte read when `rsr = 0`, `len` the caller's `int16_t` bound,
`rd0` the socket's Sn_RX_RD.  `recvFinish` is the tail of the function:
when the adjusted `ret` is positive, `recv_data_processing` copies `ret`
bytes from `rd0`, advances Sn_RX_RD by `ret` (16-bit), and `Sock_RECV` is
issued; otherwise nothing is touched and `ret` is returned as is. -/
def recvFinish (r1 : Int) (rd0 : Nat) : RecvOut :=
  if r1 > 0 then
    ⟨r1, r1.toNat, rd0, (rd0 + r1.toNat) % 65536, true⟩
  else
    ⟨r1, 0, rd0, rd0, false⟩

/-- The adjustment of `ret` performed by lines 132-145 of socket.cpp. -/
def recvClamp (rsr status : Nat) (len : Int) : Int :=
  if toInt16 rsr = 0 then
    if status = SnSR_LISTEN ∨ status = SnSR_CLOSED ∨ status = SnSR_CLOSE_WAIT then 0
    else -1
  else if toInt16 rsr > len then len else toInt16 rsr

/-- The whole of `recv`: clamp the received size, then copy/advance/RECV
exactly when the adjusted `ret` is positive (lines 147-151). -/
def recvModel (rsr status : Nat) (len : Int) (rd0 : Nat) : RecvOut :=
  recvFinish (recvClamp rsr status len) rd0

/-! ## Anti-tearing double read (w5500.cpp 85-101, w5100.cpp 274-294,
W5500Chip.cpp 224-244) -/

/-- The `getTXFreeSize` / `getRXReceivedSize` loop, identical in all three
chip drivers:
`do { val1 = read(); if (val1 != 0) val = read(); } while (val != val1);
return val;`.
`reads` is the chronological sequence of values the register reads return;
the result is the returned value together with the unconsumed suffix of
`reads` (so the consumed leading part is exactly the reads the loop did).
`val` is the C local of the same name (initially 0). -/
def readStableReg (val : Nat) : List Nat → Option (Nat × List Nat)
  | [] => none
  | v1 :: rest =>
      if v1 = 0 then
        if val = v1 then some (val, rest) else readStableReg val rest
      else
        match rest with
        | [] => none
        | v2 :: rest2 => if v2 = v1 then some (v2, rest2) else readStableReg v2 rest2

/-- `getTXFreeSize` / `getRXReceivedSize` entry point: `val` starts at 0. -/
def getStableSize (reads : List Nat) : Option (Nat × List Nat) :=
  readStableReg 0 reads

/-! ## Server facade (EthernetServer.cpp)

The server maintenance code only polls bookkeeping and status; its reads are
stable within one call, so it is embedded over an explicit state.  The
chip's documented reactions to socket commands (OPEN in TCP mode yields
INIT, LISTEN from INIT yields LISTEN, CLOSE yields CLOSED) close the loop;
`EthernetClient::stop()` is abstracted to its guaranteed outcome: after a
DISCON, a bounded 1-second wait and a forced CLOSE if still open, the socket
reads CLOSED and its `_server_port` entry is zeroed. -/

/-- Per-socket state visible to the server facade: the chip's Sn_SR byte,
the chip's RX received size (stable during one call), and the
`EthernetClass::_server_port` bookkeeping entry. -/
structure EthState where
  sr : Fin 8 → Nat
  rx : Fin 8 → Nat
  serverPort : Fin 8 → Nat

/-- Outcome of `EthernetClient::stop()` on socket `s` (EthernetClient.cpp,
lines 215-230): the socket ends CLOSED (gracefully within the 1-second
bound, or by the forced `Sock_CLOSE`) and `_server_port[s]` is cleared. -/
def clientStopEff (st : EthState) (s : Fin 8) : EthState :=
  { st with sr := Function.update st.sr s SnSR_CLOSED,
            serverPort := Function.update st.serverPort s 0 }

/-- Effect on socket `s` of `socket(chip, s, SnMR::TCP, port, 0)` followed by
`listen(chip, s)` and `_server_port[sock] = _port` as performed by
`EthernetServer::begin()` (EthernetServer.cpp, lines 36-46): the OPEN command
in TCP mode leaves the socket in INIT, from which `listen` issues
`Sock_LISTEN`, leaving it in LISTEN. -/
def armListenEff (st : EthState) (s : Fin 8) (port : Nat) : EthState :=
  { st with sr := Function.update st.sr s SnSR_LISTEN,
            serverPort := Function.update st.serverPort s port }

/-- `EthernetServer::begin()` (EthernetServer.cpp, lines 36-46): scan for the
first socket whose live status is CLOSED; open, listen and record the port
on it; do nothing if every socket is non-CLOSED. -/
def serverBegin (st : EthState) (port : Nat) : EthState :=
  match scanFirst (fun s => st.sr s == SnSR_CLOSED) allSocks with
  | some s => armListenEff st s port
  | none => st

/-- The per-socket pass of `EthernetServer::accept()` (EthernetServer.cpp,
lines 61-71) over the index list `l`: a port-bound LISTEN socket sets the
`listening` flag; a port-bound CLOSE_WAIT socket with no unread data is
stopped. -/
def acceptPass (port : Nat) : List (Fin 8) → EthState → Bool → EthState × Bool
  | [], st, listening => (st, listening)
  | s :: rest, st, listening =>
      if st.serverPort s = port then
        if st.sr s = SnSR_LISTEN then acceptPass port rest st true
        else if st.sr s = SnSR_CLOSE_WAIT ∧ st.rx s = 0 then
          acceptPass port rest (clientStopEff st s) listening
        else acceptPass port rest st listening
      else acceptPass port rest st listening

/-- `EthernetServer::accept()` (EthernetServer.cpp, lines 58-76): the
per-socket pass, then `if (!listening) begin();`. -/
def serverAccept (st : EthState) (port : Nat) : EthState :=
  if (acceptPass port allSocks st false).2 then (acceptPass port allSocks st false).1
  else serverBegin (acceptPass port allSocks st false).1 port

/-- The socket-selection test of `EthernetServer::available()`
(EthernetServer.cpp, lines 97-99): bound to this port, ESTABLISHED or
CLOSE_WAIT, and with data available. -/
def availTest (st : EthState) (port : Nat) (s : Fin 8) : Bool :=
  st.serverPort s == port &&
    (st.sr s == SnSR_ESTABLISHED || st.sr s == SnSR_CLOSE_WAIT) &&
    st.rx s != 0

/-- `EthernetServer::available()` (EthernetServer.cpp, lines 92-107): run
`accept()`, then return the first socket passing `availTest`, or the
socket-less sentinel (`none`, the client built with `MAX_SOCK_NUM`). -/
def serverAvailable (st : EthState) (port : Nat) : Option (Fin 8) :=
  let st1 := serverAccept st port
  scanFirst (availTest st1 port) allSocks

/-! ## Generic facts about the first-match scans -/

/-- A first-match scan over a strictly increasing index list returns `s`
exactly when `s` is in the list, passes the test, and every smaller listed
index fails it. -/
theorem scanFirst_eq_some_iff (pred : Fin 8 → Bool) (l : List (Fin 8))
    (hl : l.Pairwise (· < ·)) (s : Fin 8) :
    scanFirst pred l = some s ↔
      s ∈ l ∧ pred s = true ∧ ∀ t ∈ l, t < s → pred t = false := by
  induction l with
  | nil => simp [scanFirst]
  | cons a rest ih =>
      have hpw := List.pairwise_cons.mp hl
      cases hp : pred a with
      | true =>
        simp only [scanFirst, hp]
        rw [if_pos trivial]
        constructor
        · rintro h
          have has : a = s := by simpa using h
          subst has
          refine ⟨List.mem_cons_self a rest, hp, ?_⟩
          intro t ht hlt
          rcases List.mem_cons.mp ht with h1 | h1
          · subst h1; exact absurd hlt (lt_irrefl t)
          · exact absurd hlt (not_lt_of_gt (hpw.1 t h1))
        · rintro ⟨hmem, hps, hmin⟩
          rcases List.mem_cons.mp hmem with h1 | h1
          · subst h1; rfl
          · have := hmin a (List.mem_cons_self a rest) (hpw.1 s h1)
            rw [hp] at this; exact absurd this (by simp)
      | false =>
        simp only [scanFirst, hp]
        rw [if_neg Bool.false_ne_true, ih hpw.2]
        constructor
        · rintro ⟨hmem, hps, hmin⟩
          refine ⟨List.mem_cons_of_mem a hmem, hps, ?_⟩
          intro t ht hlt
          rcases List.mem_cons.mp ht with h1 | h1
          · subst h1; exact hp
          · exact hmin t h1 hlt
        · rintro ⟨hmem, hps, hmin⟩
          rcases List.mem_cons.mp hmem with h1 | h1
          · subst h1; rw [hp] at hps; exact absurd hps (by simp)
          · exact ⟨h1, hps, fun t ht hlt => hmin t (List.mem_cons_of_mem a ht) hlt⟩

/-- A first-match scan returns `none` exactly when no listed index passes. -/
theorem scanFirst_eq_none_iff (pred : Fin 8 → Bool) (l : List (Fin 8)) :
    scanFirst pred l = none ↔ ∀ t ∈ l, pred t = false := by
  induction l with
  | nil => simp [scanFirst]
  | cons a rest ih =>
      cases hp : pred a with
      | true => simp [scanFirst, hp]
      | false =>
        simp only [scanFirst, hp]
        rw [if_neg Bool.false_ne_true, ih]
        constructor
        · intro h t ht
          rcases List.mem_cons.mp ht with h1 | h1
          · subst h1; exact hp
          · exact h t h1
        · intro h t ht; exact h t (List.mem_cons_of_mem a ht)

/-- Specialization to the full index list 0..7. -/
theorem scanFirst_allSocks_some_iff (pred : Fin 8 → Bool) (s : Fin 8) :
    scanFirst pred allSocks = some s ↔
      pred s = true ∧ ∀ t, t < s → pred t = false := by
  rw [scanFirst_eq_some_iff pred allSocks (List.pairwise_lt_finRange 8) s]
  have hmem : ∀ t : Fin 8, t ∈ allSocks := fun t => List.mem_finRange t
  constructor
  · rintro ⟨_, hps, hmin⟩; exact ⟨hps, fun t hlt => hmin t (hmem t) hlt⟩
  · rintro ⟨hps, hmin⟩; exact ⟨hmem s, hps, fun t _ hlt => hmin t hlt⟩

/-- Specialization of the `none` case to the full index list. -/
theorem scanFirst_allSocks_none_iff (pred : Fin 8 → Bool) :
    scanFirst pred allSocks = none ↔ ∀ t, pred t = false := by
  rw [scanFirst_eq_none_iff]
  exact ⟨fun h t => h t (List.mem_finRange t), fun h t _ => h t⟩

/-! ## Theorems: C10, C8 -/

/-- C10: an `EthernetClient` that already holds a socket index (`_sock`
different from the `MAX_SOCK_NUM` sentinel) gets 0 back from
`connect(ip, port)` immediately: no hardware command or register write is
issued (empty event list, the continuation never runs) and the held socket
index is unchanged. -/
theorem connect_busy_early_return (sock : Nat) (status : Fin 8 → Nat)
    (cont : Fin 8 → Nat × Nat × List Ev) (h : sock ≠ MAX_SOCK_NUM) :
    connectResult sock status cont = (0, sock, []) := by
  simp [connectResult, connectAllocPhase, h]

/-- C10 witness: a client holding socket 3 on a chip with every socket
CLOSED (all reusable) still returns 0, keeps socket 3, issues nothing. -/
theorem connect_busy_early_return_witness :
    connectResult 3 (fun _ => SnSR_CLOSED) (fun s => (1, s.val, [])) = (0, 3, []) :=
  connect_busy_early_return 3 (fun _ => SnSR_CLOSED) (fun s => (1, s.val, [])) (by decide)

/-- C8 counterexample: with every hardware status reading CLOSE_WAIT, the
claim says both allocation scans treat the slots as reusable, but
`EthernetUDP::begin`'s scan (CLOSED or FIN_WAIT only) finds none and the
call fails with the facade holding `MAX_SOCK_NUM`, while
`EthernetClient::connect`'s scan accepts slot 0 on the same chip state. -/
theorem udpBegin_closewait_not_reusable :
    scanFirst (fun i => udpReusable ((fun _ : Fin 8 => SnSR_CLOSE_WAIT) i)) allSocks = none ∧
    udpBeginResult MAX_SOCK_NUM (fun _ => SnSR_CLOSE_WAIT) (fun s => (1, s.val, [])) =
      (0, MAX_SOCK_NUM, []) ∧
    scanFirst (fun i => clientReusable ((fun _ : Fin 8 => SnSR_CLOSE_WAIT) i)) allSocks =
      some 0 := by
  refine ⟨by decide, ?_, by decide⟩
  simp [udpBeginResult, MAX_SOCK_NUM]
  decide

/-- Bridge between a Bool slot test and its propositional reading, for the
first-match scans over the full index list. -/
theorem scanFirst_status_some_iff (pred : Nat → Bool) (P : Nat → Prop)
    (h : ∀ x, pred x = true ↔ P x) (status : Fin 8 → Nat) (s : Fin 8) :
    scanFirst (fun i => pred (status i)) allSocks = some s ↔
      P (status s) ∧ ∀ t, t < s → ¬ P (status t) := by
  have hf : ∀ x, pred x = false ↔ ¬ P x := by
    intro x; rw [← h x]; cases pred x <;> simp
  rw [scanFirst_allSocks_some_iff]
  constructor
  · rintro ⟨h1, h2⟩
    exact ⟨(h _).mp h1, fun t hlt => (hf _).mp (h2 t hlt)⟩
  · rintro ⟨h1, h2⟩
    exact ⟨(h _).mpr h1, fun t hlt => (hf _).mpr (h2 t hlt)⟩

/-- The `none` counterpart of `scanFirst_status_some_iff`. -/
theorem scanFirst_status_none_iff (pred : Nat → Bool) (P : Nat → Prop)
    (h : ∀ x, pred x = true ↔ P x) (status : Fin 8 → Nat) :
    scanFirst (fun i => pred (status i)) allSocks = none ↔ ∀ t, ¬ P (status t) := by
  have hf : ∀ x, pred x = false ↔ ¬ P x := by
    intro x; rw [← h x]; cases pred x <;> simp
  rw [scanFirst_allSocks_none_iff]
  exact ⟨fun hh t => (hf _).mp (hh t), fun hh t => (hf _).mpr (hh t)⟩

/-- C8 amended: the client-connect scan treats a slot as reusable when its
live hardware status is CLOSED, FIN_WAIT or CLOSE_WAIT, whereas the
UDP-begin scan accepts only CLOSED or FIN_WAIT (not CLOSE_WAIT); both scans
take the lowest qualifying index, and when no slot qualifies each operation
returns 0 with the facade holding the `MAX_SOCK_NUM` sentinel and no
hardware command issued. -/
theorem alloc_scan_amended (status : Fin 8 → Nat) (s : Fin 8)
    (cont cont' : Fin 8 → Nat × Nat × List Ev) :
    (scanFirst (fun i => clientReusable (status i)) allSocks = some s ↔
      ((status s = SnSR_CLOSED ∨ status s = SnSR_FIN_WAIT ∨ status s = SnSR_CLOSE_WAIT) ∧
       ∀ t, t < s →
         ¬(status t = SnSR_CLOSED ∨ status t = SnSR_FIN_WAIT ∨
           status t = SnSR_CLOSE_WAIT))) ∧
    (scanFirst (fun i => udpReusable (status i)) allSocks = some s ↔
      ((status s = SnSR_CLOSED ∨ status s = SnSR_FIN_WAIT) ∧
       ∀ t, t < s → ¬(status t = SnSR_CLOSED ∨ status t = SnSR_FIN_WAIT))) ∧
    (scanFirst (fun i => clientReusable (status i)) allSocks = none →
      connectResult MAX_SOCK_NUM status cont = (0, MAX_SOCK_NUM, [])) ∧
    (scanFirst (fun i => udpReusable (status i)) allSocks = none →
      udpBeginResult MAX_SOCK_NUM status cont' = (0, MAX_SOCK_NUM, [])) := by
  have hc : ∀ x, clientReusable x = true ↔
      (x = SnSR_CLOSED ∨ x = SnSR_FIN_WAIT ∨ x = SnSR_CLOSE_WAIT) := by
    intro x; simp [clientReusable, or_assoc]
  have hu : ∀ x, udpReusable x = true ↔ (x = SnSR_CLOSED ∨ x = SnSR_FIN_WAIT) := by
    intro x; simp [udpReusable]
  refine ⟨scanFirst_status_some_iff _ _ hc status s,
          scanFirst_status_some_iff _ _ hu status s, ?_, ?_⟩
  · intro h
    simp [connectResult, connectAllocPhase, MAX_SOCK_NUM, h]
  · intro h
    simp [udpBeginResult, MAX_SOCK_NUM, h]

/-- C8 amended witness: on a chip whose eight sockets all read ESTABLISHED,
neither scan finds a slot and both operations fail with the sentinel. -/
theorem alloc_scan_amended_witness :
    udpBeginResult MAX_SOCK_NUM (fun _ => SnSR_ESTABLISHED) (fun s => (1, s.val, [])) =
      (0, MAX_SOCK_NUM, []) ∧
    connectResult MAX_SOCK_NUM (fun _ => SnSR_ESTABLISHED) (fun s => (1, s.val, [])) =
      (0, MAX_SOCK_NUM, []) :=
  ⟨(alloc_scan_amended (fun _ => SnSR_ESTABLISHED) 0 (fun s => (1, s.val, []))
      (fun s => (1, s.val, []))).2.2.2 (by decide),
   (alloc_scan_amended (fun _ => SnSR_ESTABLISHED) 0 (fun s => (1, s.val, []))
      (fun s => (1, s.val, []))).2.2.1 (by decide)⟩

/-! ## Theorems: C1 -/

/-- Setting the TIMEOUT bit (0x08) of an Sn_IR byte never changes its
SEND_OK bit (0x10). -/
theorem orTimeout_and_sendok (x : Nat) :
    (x ||| SnIR_TIMEOUT) &&& SnIR_SEND_OK = x &&& SnIR_SEND_OK := by
  simp only [SnIR_TIMEOUT, SnIR_SEND_OK]
  apply Nat.eq_of_testBit_eq
  intro i
  simp only [Nat.testBit_and, Nat.testBit_or]
  rcases eq_or_ne i 4 with h | h
  · subst h
    have h8 : Nat.testBit 8 4 = false := by decide
    simp [h8]
  · have h16 : Nat.testBit 16 i = false := by
      have h2 : (16 : Nat) = 2 ^ 4 := rfl
      rw [h2]; exact Nat.testBit_two_pow_of_ne (Ne.symm h)
    simp [h16]

/-- C1 counterexample: with the TIMEOUT interrupt raised (and SEND_OK clear)
on four consecutive polls while the status stays ESTABLISHED, TCP `send` is
still spinning in its SEND_OK loop — it has neither cleared the interrupt
flags nor returned 0 — whereas `sendUDP` under the same interrupt reads
exits at once with 0 after clearing SEND_OK|TIMEOUT; and even on an
immediate SEND_OK a 10-byte send returns 0, not the byte count, because the
`chip->SSIZE` clamp reads the base-class member 0.  This refutes "a TIMEOUT
interrupt makes send clear the flags and return 0", "send returns the
number of bytes sent", and "sendUDP polls exactly as TCP send does". -/
theorem tcpSend_ignores_timeout :
    tcpSendPoll 10 (List.replicate 4 (SnIR_TIMEOUT, SnSR_ESTABLISHED)) = none ∧
    udpSendPoll (List.replicate 4 (SnIR_TIMEOUT, SnIR_TIMEOUT)) =
      some (0, [Ev.wIR (SnIR_SEND_OK ||| SnIR_TIMEOUT)]) ∧
    sendModel 10 [(2048, SnSR_ESTABLISHED)] [(SnIR_SEND_OK, SnSR_ESTABLISHED)] 100 =
      some (0, [Ev.wBuf 100 0, Ev.wTXWR 100, Ev.cmd Sock_SEND, Ev.wIR SnIR_SEND_OK]) := by
  refine ⟨by decide, by decide, by decide⟩

/-- With the pending count 0 (the real clamp value), the free-size wait
loop exits on its first iteration with 0, whatever it reads. -/
theorem sendFreeLoop_zero (p : Nat × Nat) (rest : List (Nat × Nat)) :
    sendFreeLoop 0 (p :: rest) = some 0 := by
  rcases p with ⟨fs, st⟩
  simp only [sendFreeLoop]
  split
  · rfl
  · rw [if_neg (Nat.not_lt_zero fs)]

/-- Both exits of the SEND_OK poll loop report 0 when the pending count is
0. -/
theorem tcpSendPoll_zero :
    ∀ (tr : List (Nat × Nat)) (r : Nat × List Ev),
      tcpSendPoll 0 tr = some r → r.1 = 0 := by
  intro tr
  induction tr with
  | nil => intro r h; simp [tcpSendPoll] at h
  | cons p rest ih =>
      intro r h
      rcases p with ⟨ir, sr⟩
      simp only [tcpSendPoll] at h
      split at h
      · cases h; rfl
      · split at h
        · cases h; rfl
        · exact ih r h

/-- C1 amended: after SEND, TCP `send` polls Sn_IR for SEND_OK; on success
it clears that flag and returns its clamped byte count — which is 0 on
every call, because the clamp reads `chip->SSIZE`, the `EthernetChip` base
member 0 that the derived chips' `SSIZE = 2048` only shadows.  The loop's
only failure exit is the status register reading CLOSED, whereupon
`close()` runs (a `Sock_CLOSE` command and a write clearing all interrupt
flags) and 0 is returned; the TIMEOUT interrupt bit is ignored by this
loop.  `sendUDP` polls SEND_OK the same way but aborts on the TIMEOUT
interrupt, clearing SEND_OK and TIMEOUT together and returning failure;
`sendto`, whose clamp also yields 0, always takes its `ret == 0` guard and
returns 0 without issuing any destination write, copy, SEND or poll — its
SEND/poll block is dead code. -/
theorem send_poll_amended (ret ir ir1 ir2 sr fs len txWR a0 a1 a2 a3 port : Nat)
    (az : Bool) (tr fr polls : List (Nat × Nat)) (r : Nat × List Ev) :
    (ir &&& SnIR_SEND_OK = SnIR_SEND_OK →
       tcpSendPoll ret ((ir, sr) :: tr) = some (ret, [Ev.wIR SnIR_SEND_OK])) ∧
    (ir &&& SnIR_SEND_OK ≠ SnIR_SEND_OK → sr = SnSR_CLOSED →
       tcpSendPoll ret ((ir, sr) :: tr) = some (0, [Ev.cmd Sock_CLOSE, Ev.wIR 0xFF])) ∧
    (ir &&& SnIR_SEND_OK ≠ SnIR_SEND_OK → sr ≠ SnSR_CLOSED →
       tcpSendPoll ret ((ir, sr) :: tr) = tcpSendPoll ret tr) ∧
    (tcpSendPoll ret (tr.map (fun p => (p.1 ||| SnIR_TIMEOUT, p.2))) =
       tcpSendPoll ret tr) ∧
    (ir1 &&& SnIR_SEND_OK = SnIR_SEND_OK →
       udpSendPoll ((ir1, ir2) :: tr) = some (1, [Ev.wIR SnIR_SEND_OK])) ∧
    (ir1 &&& SnIR_SEND_OK ≠ SnIR_SEND_OK → ir2 &&& SnIR_TIMEOUT ≠ 0 →
       udpSendPoll ((ir1, ir2) :: tr) =
         some (0, [Ev.wIR (SnIR_SEND_OK ||| SnIR_TIMEOUT)])) ∧
    (sendModel len fr tr txWR = some r → r.1 = 0) ∧
    (ir &&& SnIR_SEND_OK = SnIR_SEND_OK →
       sendModel len ((fs, SnSR_ESTABLISHED) :: fr) ((ir, sr) :: tr) txWR =
         some (0, [Ev.wBuf txWR 0, Ev.wTXWR (txWR % 65536),
                   Ev.cmd Sock_SEND, Ev.wIR SnIR_SEND_OK])) ∧
    (sendtoModel len az a0 a1 a2 a3 port txWR polls = some (0, [])) := by
  have hret0 : (if len > EthernetChip_SSIZE then EthernetChip_SSIZE else len) = 0 := by
    simp only [EthernetChip_SSIZE]; split <;> omega
  refine ⟨?_, ?_, ?_, ?_, ?_, ?_, ?_, ?_, ?_⟩
  · intro h; simp [tcpSendPoll, h]
  · intro h hsr; simp [tcpSendPoll, h, hsr]
  · intro h hsr; simp [tcpSendPoll, h, hsr]
  · induction tr with
    | nil => rfl
    | cons p rest ih =>
        simp only [List.map_cons, tcpSendPoll, orTimeout_and_sendok p.1]
        by_cases h : p.1 &&& SnIR_SEND_OK = SnIR_SEND_OK
        · simp [h]
        · by_cases hsr : p.2 = SnSR_CLOSED <;> simp [h, hsr, ih]
  · intro h; simp [udpSendPoll, h]
  · intro h ht; simp [udpSendPoll, h, ht]
  · intro h
    simp only [sendModel, hret0] at h
    rcases hfl : sendFreeLoop 0 fr with _ | v
    · rw [hfl] at h; exact absurd h (by simp)
    · rw [hfl] at h
      have hv : v = 0 := by
        cases fr with
        | nil => simp [sendFreeLoop] at hfl
        | cons p rest =>
            rw [sendFreeLoop_zero p rest] at hfl
            exact (Option.some.injEq _ _).mp hfl.symm
      subst hv
      dsimp only at h
      rcases htp : tcpSendPoll 0 tr with _ | r0
      · rw [htp] at h; exact absurd h (by simp)
      · rw [htp] at h
        simp only [Option.some.injEq] at h
        rw [← h]
        exact tcpSendPoll_zero tr r0 htp
  · intro h
    simp only [sendModel, hret0, sendFreeLoop_zero (fs, SnSR_ESTABLISHED) fr]
    simp [tcpSendPoll, h]
  · simp only [sendtoModel]
    rw [if_pos (Or.inr (Or.inr hret0))]

/-- C1 amended witness: a SEND_OK read on the first poll makes the TCP poll
loop exit clearing SEND_OK; a whole `send` with immediate buffer space and
SEND_OK still returns 0 (zero bytes buffered); a TIMEOUT read makes
`sendUDP` fail clearing SEND_OK|TIMEOUT; and `sendto` returns 0 issuing
nothing. -/
theorem send_poll_amended_witness :
    tcpSendPoll 7 [(SnIR_SEND_OK, SnSR_ESTABLISHED)] = some (7, [Ev.wIR SnIR_SEND_OK]) ∧
    udpSendPoll [(0, SnIR_TIMEOUT)] = some (0, [Ev.wIR (SnIR_SEND_OK ||| SnIR_TIMEOUT)]) ∧
    sendModel 7 [(2048, SnSR_ESTABLISHED)] [(SnIR_SEND_OK, SnSR_ESTABLISHED)] 100 =
      some (0, [Ev.wBuf 100 0, Ev.wTXWR (100 % 65536),
                Ev.cmd Sock_SEND, Ev.wIR SnIR_SEND_OK]) ∧
    sendtoModel 7 false 192 168 1 1 80 100 [(0, SnIR_TIMEOUT)] = some (0, []) :=
  ⟨(send_poll_amended 7 SnIR_SEND_OK 0 SnIR_TIMEOUT SnSR_ESTABLISHED 2048 7 100
      192 168 1 1 80 false [] [] [(0, SnIR_TIMEOUT)] (0, [])).1 (by decide),
   (send_poll_amended 7 SnIR_SEND_OK 0 SnIR_TIMEOUT SnSR_ESTABLISHED 2048 7 100
      192 168 1 1 80 false [] [] [(0, SnIR_TIMEOUT)] (0, [])).2.2.2.2.2.1
     (by decide) (by decide),
   (send_poll_amended 7 SnIR_SEND_OK 0 SnIR_TIMEOUT SnSR_ESTABLISHED 2048 7 100
      192 168 1 1 80 false [] [] [(0, SnIR_TIMEOUT)] (0, [])).2.2.2.2.2.2.2.1 (by decide),
   (send_poll_amended 7 SnIR_SEND_OK 0 SnIR_TIMEOUT SnSR_ESTABLISHED 2048 7 100
      192 168 1 1 80 false [] [] [(0, SnIR_TIMEOUT)] (0, [])).2.2.2.2.2.2.2.2⟩

/-! ## Theorems: C2 -/

/-- C2 counterexample: a single `bufferData` call with `TX_WR = 100`,
offset 5, length 3 writes the TX write-pointer register to 108 — the call
itself changes Sn_TX_WR, contrary to the claim that it leaves the register
unchanged — while `sendUDP` leaves the TX state untouched, contrary to the
claim that sendUDP is what advances it. -/
theorem bufferData_advances_txwr :
    (bufferData ⟨100, 2048⟩ 5 3).1.txWR = 108 ∧
    ¬ (bufferData ⟨100, 2048⟩ 5 3).1.txWR = (TxState.mk 100 2048).txWR ∧
    (bufferData ⟨100, 2048⟩ 5 3).2.2 = [Ev.wBuf 105 3, Ev.wTXWR 108] ∧
    (sendUDPModel ⟨100, 2048⟩ [(SnIR_SEND_OK, 0)]).1.txWR = 100 := by
  decide

/-- Every event the `sendUDP` poll loop issues is an interrupt-flag write. -/
theorem udpSendPoll_events_wIR (polls : List (Nat × Nat)) (r : Nat × List Ev)
    (h : udpSendPoll polls = some r) : ∀ e ∈ r.2, ∃ v, e = Ev.wIR v := by
  induction polls with
  | nil => simp [udpSendPoll] at h
  | cons p rest ih =>
      rw [udpSendPoll] at h
      by_cases h1 : p.1 &&& SnIR_SEND_OK = SnIR_SEND_OK
      · rw [if_pos h1] at h
        cases h
        intro e he
        simp at he
        exact ⟨SnIR_SEND_OK, he⟩
      · rw [if_neg h1] at h
        by_cases h2 : p.2 &&& SnIR_TIMEOUT ≠ 0
        · rw [if_pos h2] at h
          cases h
          intro e he
          simp at he
          exact ⟨SnIR_SEND_OK ||| SnIR_TIMEOUT, he⟩
        · rw [if_neg h2] at h
          exact ih h

/-- C2 amended: `bufferData` clamps the length to the TX free size, writes
the bytes at address `TX_WR + offset` and itself writes Sn_TX_WR back as
`TX_WR + offset + count` (16-bit), so each call of a multi-write datagram
leaves the register at base plus running total; `sendUDP` never touches the
TX pointer or buffer — it only issues the SEND command and interrupt-flag
writes while polling. -/
theorem bufferData_sendUDP_amended (st : TxState) (off len : Nat)
    (polls : List (Nat × Nat)) :
    (bufferData st off len).2.1 = min len st.fsr ∧
    (bufferData st off len).1.txWR = ((st.txWR + off) % 65536 + min len st.fsr) % 65536 ∧
    (bufferData st off len).1.fsr = st.fsr ∧
    (bufferData st off len).2.2 =
      [Ev.wBuf ((st.txWR + off) % 65536) (min len st.fsr),
       Ev.wTXWR (((st.txWR + off) % 65536 + min len st.fsr) % 65536)] ∧
    (sendUDPModel st polls).1 = st ∧
    (∀ r, (sendUDPModel st polls).2 = some r →
       ∀ e ∈ r.2, e = Ev.cmd Sock_SEND ∨ ∃ v, e = Ev.wIR v) := by
  have hmin : (if len > st.fsr then st.fsr else len) = min len st.fsr := by
    rw [min_def]; split <;> split <;> omega
  refine ⟨?_, ?_, ?_, ?_, rfl, ?_⟩
  · simp [bufferData, hmin]
  · simp [bufferData, send_data_processing_offset, hmin]
  · simp [bufferData, send_data_processing_offset, hmin]
  · simp [bufferData, send_data_processing_offset, hmin]
  · intro r hr e he
    simp only [sendUDPModel, Option.map_eq_some'] at hr
    obtain ⟨r0, hr0, hre⟩ := hr
    subst hre
    simp only [List.mem_cons] at he
    rcases he with he | he
    · exact Or.inl he
    · exact Or.inr (udpSendPoll_events_wIR polls r0 hr0 e he)

/-- C2 amended witness: the theorem evaluated at `TX_WR = 100`, free size
2048, offset 5, length 3, with a successful one-iteration poll. -/
theorem bufferData_sendUDP_amended_witness :
    (bufferData ⟨100, 2048⟩ 5 3).2.1 = min 3 2048 ∧
    (sendUDPModel (⟨100, 2048⟩ : TxState) [(SnIR_SEND_OK, 0)]).1 =
      (⟨100, 2048⟩ : TxState) :=
  ⟨(bufferData_sendUDP_amended ⟨100, 2048⟩ 5 3 [(SnIR_SEND_OK, 0)]).1,
   (bufferData_sendUDP_amended ⟨100, 2048⟩ 5 3 [(SnIR_SEND_OK, 0)]).2.2.2.2.1⟩

/-! ## Theorems: C3 -/

/-- C3 counterexample: with 5 received bytes pending and an ESTABLISHED
socket, `recv` called with `maxLen = -3` returns -3 — not a copied-byte
count — and issues no RECV command and moves nothing; with `maxLen = 0` it
returns 0 while likewise never issuing the RECV command the claim
requires of every positive-received-size call. -/
theorem recv_nonpositive_len :
    recvModel 5 SnSR_ESTABLISHED (-3) 100 = ⟨-3, 0, 100, 100, false⟩ ∧
    recvModel 5 SnSR_ESTABLISHED 0 100 = ⟨0, 0, 100, 100, false⟩ := by
  decide

/-- C3 amended: when the received size is positive (and below 32768, true
of the 2 KB buffer) and `maxLen` is positive, `recv` copies
`min(receivedSize, maxLen)` bytes from Sn_RX_RD, advances Sn_RX_RD by that
count, issues RECV and returns the count; when `maxLen ≤ 0` it returns
`maxLen` itself with no copy, no pointer move and no RECV.  When the
received size is 0 it returns 0 (connection closed) for
LISTEN/CLOSED/CLOSE_WAIT and the sentinel -1 (no data yet) otherwise,
with no side effect in either case. -/
theorem recv_amended (rsr status : Nat) (len : Int) (rd0 : Nat) :
    (0 < rsr → rsr < 32768 → 0 < len →
       recvModel rsr status len rd0 =
         ⟨min (rsr : Int) len, (min (rsr : Int) len).toNat, rd0,
          (rd0 + (min (rsr : Int) len).toNat) % 65536, true⟩) ∧
    (0 < rsr → rsr < 32768 → len ≤ 0 →
       recvModel rsr status len rd0 = ⟨len, 0, rd0, rd0, false⟩) ∧
    (rsr = 0 →
      (status = SnSR_LISTEN ∨ status = SnSR_CLOSED ∨ status = SnSR_CLOSE_WAIT) →
       recvModel rsr status len rd0 = ⟨0, 0, rd0, rd0, false⟩) ∧
    (rsr = 0 →
      ¬(status = SnSR_LISTEN ∨ status = SnSR_CLOSED ∨ status = SnSR_CLOSE_WAIT) →
       recvModel rsr status len rd0 = ⟨-1, 0, rd0, rd0, false⟩) := by
  have ht : rsr < 32768 → toInt16 rsr = (rsr : Int) := by
    intro hlt
    have hmod : rsr % 65536 = rsr := Nat.mod_eq_of_lt (by omega)
    simp only [toInt16, hmod]
    rw [if_pos (by omega)]
  refine ⟨?_, ?_, ?_, ?_⟩
  · intro hpos hlt hlen
    have hc : recvClamp rsr status len = min (rsr : Int) len := by
      simp only [recvClamp, ht hlt]
      rw [if_neg (by omega)]
      by_cases hgt : (rsr : Int) > len
      · rw [if_pos hgt, min_eq_right (le_of_lt hgt)]
      · rw [if_neg hgt, min_eq_left (by omega)]
    rw [recvModel, hc, recvFinish, if_pos (by omega)]
  · intro hpos hlt hlen
    have hc : recvClamp rsr status len = len := by
      simp only [recvClamp, ht hlt]
      rw [if_neg (by omega), if_pos (by omega)]
    rw [recvModel, hc, recvFinish, if_neg (by omega)]
  · intro h0 hst
    have hc : recvClamp rsr status len = 0 := by
      simp only [recvClamp, h0, toInt16]
      rw [if_pos (by norm_num), if_pos hst]
    rw [recvModel, hc, recvFinish, if_neg (by norm_num)]
  · intro h0 hst
    have hc : recvClamp rsr status len = -1 := by
      simp only [recvClamp, h0, toInt16]
      rw [if_pos (by norm_num), if_neg hst]
    rw [recvModel, hc, recvFinish, if_neg (by norm_num)]

/-- C3 amended witness: 5 bytes pending, ESTABLISHED socket, `maxLen = 2`:
recv copies 2 bytes from address 100, advances Sn_RX_RD to 102, issues
RECV and returns 2. -/
theorem recv_amended_witness :
    recvModel 5 SnSR_ESTABLISHED 2 100 =
      ⟨min ((5 : Nat) : Int) 2, (min ((5 : Nat) : Int) 2).toNat,
       100, (100 + (min ((5 : Nat) : Int) 2).toNat) % 65536, true⟩ :=
  (recv_amended 5 SnSR_ESTABLISHED 2 100).1 (by decide) (by decide) (by decide)

/-! ## Theorems: C4 -/

/-- C4 counterexample: a first register read of 0 makes the loop exit at
once — `getTXFreeSize`/`getRXReceivedSize` return 0 after exactly one read
(`[0]` is consumed whole, and no shorter trace yields a value), so the
register is not always read twice and an unconfirmed single read can be
returned. -/
theorem getStableSize_single_zero :
    getStableSize [0] = some (0, []) ∧ getStableSize [] = none := by
  decide

/-- Structure of any value the double-read loop returns: either the last
two reads consumed were equal to it (a confirming stable pair), or it is 0
returned from the very first read with no confirmation. -/
theorem readStableReg_consumed :
    ∀ (reads : List Nat) (val v : Nat) (rest : List Nat),
      readStableReg val reads = some (v, rest) →
      (∃ pre, reads = pre ++ v :: v :: rest) ∨ (val = 0 ∧ v = 0 ∧ reads = 0 :: rest)
  | [], val, v, rest, h => by simp [readStableReg] at h
  | v1 :: r, val, v, rest, h => by
      rw [readStableReg.eq_def] at h
      simp only at h
      by_cases h0 : v1 = 0
      · subst h0
        rw [if_pos rfl] at h
        by_cases hv : val = 0
        · rw [if_pos hv] at h
          simp only [Option.some.injEq, Prod.mk.injEq] at h
          obtain ⟨hval, hrest⟩ := h
          refine Or.inr ⟨hv, by omega, ?_⟩
          rw [hrest]
        · rw [if_neg hv] at h
          rcases readStableReg_consumed r val v rest h with ⟨pre, hpre⟩ | ⟨hval, _, _⟩
          · exact Or.inl ⟨0 :: pre, by simp [hpre]⟩
          · exact absurd hval hv
      · rw [if_neg h0] at h
        cases r with
        | nil => simp at h
        | cons v2 rest2 =>
            dsimp only at h
            by_cases h2 : v2 = v1
            · rw [if_pos h2] at h
              simp only [Option.some.injEq, Prod.mk.injEq] at h
              obtain ⟨hval, hrest⟩ := h
              exact Or.inl ⟨[], by simp [hrest, ← hval, h2]⟩
            · rw [if_neg h2] at h
              rcases readStableReg_consumed rest2 v2 v rest h with ⟨pre, hpre⟩ | ⟨hv2, hv0, hr2⟩
              · exact Or.inl ⟨v1 :: v2 :: pre, by simp [hpre]⟩
              · subst hv0
                exact Or.inl ⟨[v1], by simp [hr2, hv2]⟩

/-- C4 amended: in all three implementations (W5500::getTXFreeSize and
getRXReceivedSize, W5100Class::getTXFreeSize and getRXReceivedSize,
W5500Chip::getTXFreeSize and getRXReceivedSize — the loop is identical), a
nonzero returned value is always confirmed by two consecutive equal reads;
a zero returned value is either confirmed the same way or is the very
first read returned immediately without a second, confirming read. -/
theorem getStableSize_amended (reads : List Nat) (v : Nat) (rest : List Nat)
    (h : getStableSize reads = some (v, rest)) :
    (∃ pre, reads = pre ++ v :: v :: rest) ∨ (v = 0 ∧ reads = 0 :: rest) := by
  rcases readStableReg_consumed reads 0 v rest h with h1 | h1
  · exact Or.inl h1
  · exact Or.inr ⟨h1.2.1, h1.2.2⟩

/-- C4 amended witness: the read trace 5, 5, 7 returns 5 confirmed by the
stable pair, leaving the trailing read unconsumed. -/
theorem getStableSize_amended_witness :
    (∃ pre, [5, 5, 7] = pre ++ 5 :: 5 :: [7]) ∨ ((5 : Nat) = 0 ∧ [5, 5, 7] = 0 :: [7]) :=
  getStableSize_amended [5, 5, 7] 5 [7] (by decide)

/-! ## Lemmas about the accept() pass (C7) -/

/-- Field view of `clientStopEff`. -/
theorem clientStopEff_fields (st : EthState) (s t : Fin 8) :
    (clientStopEff st s).sr t = (if t = s then SnSR_CLOSED else st.sr t) ∧
    (clientStopEff st s).serverPort t = (if t = s then 0 else st.serverPort t) ∧
    (clientStopEff st s).rx t = st.rx t := by
  refine ⟨?_, ?_, rfl⟩ <;> simp [clientStopEff, Function.update_apply]

/-- `Bool` any respects pointwise equal predicates. -/
theorem list_any_congr {α : Type} (f g : α → Bool) :
    ∀ (l : List α), (∀ x ∈ l, f x = g x) → l.any f = l.any g := by
  intro l
  induction l with
  | nil => intro _; rfl
  | cons a rest ih =>
      intro h
      simp only [List.any_cons, h a (List.mem_cons_self a rest),
        ih (fun x hx => h x (List.mem_cons_of_mem a hx))]

/-- The accept pass never touches the RX sizes. -/
theorem acceptPass_rx (port : Nat) :
    ∀ (l : List (Fin 8)) (st : EthState) (b : Bool),
      (acceptPass port l st b).1.rx = st.rx := by
  intro l
  induction l with
  | nil => intro st b; rfl
  | cons s rest ih =>
      intro st b
      simp only [acceptPass]
      by_cases h1 : st.serverPort s = port
      · rw [if_pos h1]
        by_cases h2 : st.sr s = SnSR_LISTEN
        · rw [if_pos h2]; exact ih st true
        · rw [if_neg h2]
          by_cases h3 : st.sr s = SnSR_CLOSE_WAIT ∧ st.rx s = 0
          · rw [if_pos h3]; exact ih (clientStopEff st s) b
          · rw [if_neg h3]; exact ih st b
      · rw [if_neg h1]; exact ih st b

/-- Sockets not in the iterated index list are untouched by the pass. -/
theorem acceptPass_not_mem (port : Nat) :
    ∀ (l : List (Fin 8)) (st : EthState) (b : Bool) (t : Fin 8), t ∉ l →
      (acceptPass port l st b).1.sr t = st.sr t ∧
      (acceptPass port l st b).1.serverPort t = st.serverPort t := by
  intro l
  induction l with
  | nil => intro st b t _; exact ⟨rfl, rfl⟩
  | cons s rest ih =>
      intro st b t ht
      have hts : t ≠ s := fun he => ht (he ▸ List.mem_cons_self s rest)
      have htr : t ∉ rest := fun he => ht (List.mem_cons_of_mem s he)
      simp only [acceptPass]
      by_cases h1 : st.serverPort s = port
      · rw [if_pos h1]
        by_cases h2 : st.sr s = SnSR_LISTEN
        · rw [if_pos h2]; exact ih st true t htr
        · rw [if_neg h2]
          by_cases h3 : st.sr s = SnSR_CLOSE_WAIT ∧ st.rx s = 0
          · rw [if_pos h3]
            have hf := clientStopEff_fields st s t
            rw [if_neg hts] at hf
            rw [if_neg hts] at hf
            obtain ⟨ha, hb, _⟩ := hf
            obtain ⟨hc, hd⟩ := ih (clientStopEff st s) b t htr
            exact ⟨hc.trans ha, hd.trans hb⟩
          · rw [if_neg h3]; exact ih st b t htr
      · rw [if_neg h1]; exact ih st b t htr

/-- A port-bound CLOSE_WAIT socket with no unread data is stopped by the
pass: afterwards it reads CLOSED and its server-port entry is cleared. -/
theorem acceptPass_reap (port : Nat) :
    ∀ (l : List (Fin 8)) (st : EthState) (b : Bool) (t : Fin 8),
      l.Nodup → t ∈ l →
      st.serverPort t = port → st.sr t = SnSR_CLOSE_WAIT → st.rx t = 0 →
      (acceptPass port l st b).1.sr t = SnSR_CLOSED ∧
      (acceptPass port l st b).1.serverPort t = 0 := by
  intro l
  induction l with
  | nil => intro st b t _ ht; exact absurd ht (List.not_mem_nil t)
  | cons s rest ih =>
      intro st b t hnd ht hp hsr hrx
      have hnd' := List.nodup_cons.mp hnd
      simp only [acceptPass]
      rcases List.mem_cons.mp ht with hts | htr
      · subst hts
        rw [if_pos hp, if_neg (by rw [hsr]; decide), if_pos ⟨hsr, hrx⟩]
        obtain ⟨ha, hb⟩ := acceptPass_not_mem port rest (clientStopEff st t) b t hnd'.1
        have hf := clientStopEff_fields st t t
        rw [if_pos rfl] at hf
        rw [if_pos rfl] at hf
        exact ⟨ha.trans hf.1, hb.trans hf.2.1⟩
      · have hts : t ≠ s := fun he => hnd'.1 (he ▸ htr)
        by_cases h1 : st.serverPort s = port
        · rw [if_pos h1]
          by_cases h2 : st.sr s = SnSR_LISTEN
          · rw [if_pos h2]; exact ih st true t hnd'.2 htr hp hsr hrx
          · rw [if_neg h2]
            by_cases h3 : st.sr s = SnSR_CLOSE_WAIT ∧ st.rx s = 0
            · rw [if_pos h3]
              have hf := clientStopEff_fields st s t
              rw [if_neg hts] at hf
              rw [if_neg hts] at hf
              exact ih (clientStopEff st s) b t hnd'.2 htr (hf.2.1.trans hp)
                (hf.1.trans hsr) (hf.2.2.trans hrx)
            · rw [if_neg h3]; exact ih st b t hnd'.2 htr hp hsr hrx
        · rw [if_neg h1]; exact ih st b t hnd'.2 htr hp hsr hrx

/-- A socket that is not a port-bound, drained CLOSE_WAIT socket keeps its
status and server-port entry across the pass. -/
theorem acceptPass_noreap (port : Nat) :
    ∀ (l : List (Fin 8)) (st : EthState) (b : Bool) (t : Fin 8),
      l.Nodup →
      ¬(st.serverPort t = port ∧ st.sr t = SnSR_CLOSE_WAIT ∧ st.rx t = 0) →
      (acceptPass port l st b).1.sr t = st.sr t ∧
      (acceptPass port l st b).1.serverPort t = st.serverPort t := by
  intro l
  induction l with
  | nil => intro st b t _ _; exact ⟨rfl, rfl⟩
  | cons s rest ih =>
      intro st b t hnd hcond
      have hnd' := List.nodup_cons.mp hnd
      simp only [acceptPass]
      by_cases h1 : st.serverPort s = port
      · rw [if_pos h1]
        by_cases h2 : st.sr s = SnSR_LISTEN
        · rw [if_pos h2]; exact ih st true t hnd'.2 hcond
        · rw [if_neg h2]
          by_cases h3 : st.sr s = SnSR_CLOSE_WAIT ∧ st.rx s = 0
          · rw [if_pos h3]
            have hts : t ≠ s := by
              intro he
              exact hcond (he ▸ ⟨h1, h3.1, h3.2⟩)
            have hf := clientStopEff_fields st s t
            rw [if_neg hts] at hf
            rw [if_neg hts] at hf
            have hcond' :
                ¬((clientStopEff st s).serverPort t = port ∧
                  (clientStopEff st s).sr t = SnSR_CLOSE_WAIT ∧
                  (clientStopEff st s).rx t = 0) := by
              rw [hf.1, hf.2.1, hf.2.2]; exact hcond
            obtain ⟨ha, hb⟩ := ih (clientStopEff st s) b t hnd'.2 hcond'
            exact ⟨ha.trans hf.1, hb.trans hf.2.1⟩
          · rw [if_neg h3]; exact ih st b t hnd'.2 hcond
      · rw [if_neg h1]; exact ih st b t hnd'.2 hcond

/-- The listening flag computed by the pass: true exactly when some socket
in the list was port-bound and LISTEN-ing at entry (an accumulator-or). -/
theorem acceptPass_flag (port : Nat) :
    ∀ (l : List (Fin 8)) (st : EthState) (b : Bool),
      (acceptPass port l st b).2 =
        (b || l.any (fun t => st.serverPort t == port && st.sr t == SnSR_LISTEN)) := by
  intro l
  induction l with
  | nil => intro st b; simp [acceptPass]
  | cons s rest ih =>
      intro st b
      simp only [acceptPass, List.any_cons]
      by_cases h1 : st.serverPort s = port
      · rw [if_pos h1]
        by_cases h2 : st.sr s = SnSR_LISTEN
        · rw [if_pos h2, ih st true]
          have hs : (st.serverPort s == port && st.sr s == SnSR_LISTEN) = true := by
            simp [h1, h2]
          rw [hs]
          simp
        · rw [if_neg h2]
          have hs : (st.serverPort s == port && st.sr s == SnSR_LISTEN) = false := by
            simp [h2]
          by_cases h3 : st.sr s = SnSR_CLOSE_WAIT ∧ st.rx s = 0
          · rw [if_pos h3, ih (clientStopEff st s) b]
            have hany : rest.any (fun t => (clientStopEff st s).serverPort t == port &&
                (clientStopEff st s).sr t == SnSR_LISTEN) =
                rest.any (fun t => st.serverPort t == port && st.sr t == SnSR_LISTEN) := by
              apply list_any_congr
              intro x hx
              by_cases hxs : x = s
              · subst hxs
                have hf := clientStopEff_fields st x x
                rw [if_pos rfl] at hf
                rw [if_pos rfl] at hf
                rw [hf.1, hf.2.1]
                simp only [SnSR_LISTEN] at h2
                simp [h2, SnSR_CLOSED, SnSR_LISTEN]
              · have hf := clientStopEff_fields st s x
                rw [if_neg hxs] at hf
                rw [if_neg hxs] at hf
                rw [hf.1, hf.2.1]
            rw [hany, hs]
            simp
          · rw [if_neg h3, ih st b, hs]
            simp
      · rw [if_neg h1]
        have hs : (st.serverPort s == port && st.sr s == SnSR_LISTEN) = false := by
          simp [h1]
        rw [ih st b, hs]
        simp

/-- What `EthernetServer::begin()` does: if some socket reads CLOSED, the
first such socket is opened, listened and bound to the port; otherwise the
state is untouched. -/
theorem serverBegin_spec (st : EthState) (port : Nat) :
    ((∃ c, st.sr c = SnSR_CLOSED) →
       ∃ s, (serverBegin st port).sr s = SnSR_LISTEN ∧
            (serverBegin st port).serverPort s = port) ∧
    ((∀ c, st.sr c ≠ SnSR_CLOSED) → serverBegin st port = st) := by
  constructor
  · rintro ⟨c, hc⟩
    cases hscan : scanFirst (fun s => st.sr s == SnSR_CLOSED) allSocks with
    | none =>
        rw [scanFirst_allSocks_none_iff] at hscan
        have := hscan c
        rw [hc] at this
        simp at this
    | some s =>
        refine ⟨s, ?_⟩
        simp [serverBegin, hscan, armListenEff, Function.update_apply]
  · intro h
    cases hscan : scanFirst (fun s => st.sr s == SnSR_CLOSED) allSocks with
    | none => simp [serverBegin, hscan]
    | some s =>
        have := (scanFirst_allSocks_some_iff _ s).mp hscan
        rw [beq_iff_eq] at this
        exact absurd this.1 (h s)

/-- C7: `available()` first runs the `accept()` maintenance pass — every
socket bound to this server's port that reads CLOSE_WAIT with no unread
data is stopped (it ends CLOSED with its port entry cleared) and every
other socket keeps its status and port entry; afterwards, exactly when no
socket bound to the port was LISTEN-ing, `begin()` re-arms one fresh LISTEN
socket bound to the port (provided some socket then reads CLOSED).  It then
returns the lowest-index socket bound to the port that is ESTABLISHED or
CLOSE_WAIT with data available, and the socket-less sentinel when no socket
qualifies. -/
theorem server_available_spec (st : EthState) (port : Nat) :
    (∀ t, st.serverPort t = port → st.sr t = SnSR_CLOSE_WAIT → st.rx t = 0 →
       ((acceptPass port allSocks st false).1.sr t = SnSR_CLOSED ∧
        (acceptPass port allSocks st false).1.serverPort t = 0)) ∧
    (∀ t, ¬(st.serverPort t = port ∧ st.sr t = SnSR_CLOSE_WAIT ∧ st.rx t = 0) →
       ((acceptPass port allSocks st false).1.sr t = st.sr t ∧
        (acceptPass port allSocks st false).1.serverPort t = st.serverPort t)) ∧
    ((∃ s, st.serverPort s = port ∧ st.sr s = SnSR_LISTEN) →
       serverAccept st port = (acceptPass port allSocks st false).1) ∧
    ((¬∃ s, st.serverPort s = port ∧ st.sr s = SnSR_LISTEN) →
       serverAccept st port = serverBegin (acceptPass port allSocks st false).1 port) ∧
    ((¬∃ s, st.serverPort s = port ∧ st.sr s = SnSR_LISTEN) →
       (∃ c, (acceptPass port allSocks st false).1.sr c = SnSR_CLOSED) →
       ∃ s, (serverAccept st port).sr s = SnSR_LISTEN ∧
            (serverAccept st port).serverPort s = port) ∧
    (∀ s, serverAvailable st port = some s ↔
       (availTest (serverAccept st port) port s = true ∧
        ∀ t, t < s → availTest (serverAccept st port) port t = false)) ∧
    (serverAvailable st port = none ↔
       ∀ t, availTest (serverAccept st port) port t = false) ∧
    (∀ s, availTest (serverAccept st port) port s = true ↔
       ((serverAccept st port).serverPort s = port ∧
        ((serverAccept st port).sr s = SnSR_ESTABLISHED ∨
         (serverAccept st port).sr s = SnSR_CLOSE_WAIT) ∧
        (serverAccept st port).rx s ≠ 0)) := by
  have hnd : allSocks.Nodup := List.nodup_finRange 8
  have hflag : (acceptPass port allSocks st false).2 =
      allSocks.any (fun t => st.serverPort t == port && st.sr t == SnSR_LISTEN) := by
    rw [acceptPass_flag]; simp
  have hany : allSocks.any (fun t => st.serverPort t == port && st.sr t == SnSR_LISTEN) =
      true ↔ ∃ s, st.serverPort s = port ∧ st.sr s = SnSR_LISTEN := by
    rw [List.any_eq_true]
    constructor
    · rintro ⟨s, _, hs⟩
      rw [Bool.and_eq_true, beq_iff_eq, beq_iff_eq] at hs
      exact ⟨s, hs⟩
    · rintro ⟨s, hs1, hs2⟩
      refine ⟨s, List.mem_finRange s, ?_⟩
      rw [Bool.and_eq_true, beq_iff_eq, beq_iff_eq]
      exact ⟨hs1, hs2⟩
  refine ⟨?_, ?_, ?_, ?_, ?_, ?_, ?_, ?_⟩
  · intro t h1 h2 h3
    exact acceptPass_reap port allSocks st false t hnd (List.mem_finRange t) h1 h2 h3
  · intro t hc
    exact acceptPass_noreap port allSocks st false t hnd hc
  · intro hex
    rw [serverAccept, if_pos (by rw [hflag, hany]; exact hex)]
  · intro hnex
    rw [serverAccept, if_neg (by rw [hflag]; intro hh; exact hnex (hany.mp hh))]
  · intro hnex hcl
    have hacc : serverAccept st port =
        serverBegin (acceptPass port allSocks st false).1 port := by
      rw [serverAccept, if_neg (by rw [hflag]; intro hh; exact hnex (hany.mp hh))]
    rw [hacc]
    exact (serverBegin_spec (acceptPass port allSocks st false).1 port).1 hcl
  · intro s
    rw [serverAvailable, scanFirst_allSocks_some_iff]
  · rw [serverAvailable, scanFirst_allSocks_none_iff]
  · intro s
    rw [availTest]
    constructor
    · intro h
      rw [Bool.and_eq_true, Bool.and_eq_true, Bool.or_eq_true, beq_iff_eq, beq_iff_eq,
        beq_iff_eq, bne_iff_ne] at h
      exact ⟨h.1.1, h.1.2, h.2⟩
    · rintro ⟨h1, h2, h3⟩
      rw [Bool.and_eq_true, Bool.and_eq_true, Bool.or_eq_true, beq_iff_eq, beq_iff_eq,
        beq_iff_eq, bne_iff_ne]
      exact ⟨⟨h1, h2⟩, h3⟩

/-- C7 witness: on a chip whose eight sockets are all CLOSE_WAIT with no
data and bound to port 5, the maintenance pass reaps socket 0 (CLOSED, port
entry cleared) and, since no socket was LISTEN-ing, `begin()` re-arms a
LISTEN socket bound to port 5. -/
theorem server_available_spec_witness :
    ((acceptPass 5 allSocks ⟨fun _ => SnSR_CLOSE_WAIT, fun _ => 0, fun _ => 5⟩
        false).1.sr 0 = SnSR_CLOSED ∧
     (acceptPass 5 allSocks ⟨fun _ => SnSR_CLOSE_WAIT, fun _ => 0, fun _ => 5⟩
        false).1.serverPort 0 = 0) ∧
    (∃ s, (serverAccept ⟨fun _ => SnSR_CLOSE_WAIT, fun _ => 0, fun _ => 5⟩ 5).sr s =
            SnSR_LISTEN ∧
          (serverAccept ⟨fun _ => SnSR_CLOSE_WAIT, fun _ => 0, fun _ => 5⟩ 5).serverPort s =
            5) :=
  ⟨(server_available_spec ⟨fun _ => SnSR_CLOSE_WAIT, fun _ => 0, fun _ => 5⟩ 5).1
      0 rfl rfl rfl,
   (server_available_spec ⟨fun _ => SnSR_CLOSE_WAIT, fun _ => 0, fun _ => 5⟩ 5).2.2.2.2.1
      (by decide) (by decide)⟩
